import Mathlib

/-!
Verification of the optimizer core in src/chainer/optimizer.py against its
specification. The Python code is shallowly embedded: arrays become explicit
shape/dtype/data records over exact rationals, parameter variables carry an
optional gradient, ordered Python dicts become association lists, and the
stateful methods become pure functions that return the updated objects
(together with an event trace where the order of side effects matters).
Device handling (cuda residency, state migration) is collapsed to a single
device, which is the only configuration expressible in this pure model.
-/

/-- Element dtype tag of an array (the numpy dtype abstraction). -/
inductive Dtype where
  | float32
  | float64
deriving DecidableEq

/-- Array-like value: shape, dtype and flat element data. Exact rationals
model the float contents. Mirrors the ndarray surface used by
optimizer.py (shape, dtype, elementwise data). -/
structure Arr where
  shape : List Nat
  dtype : Dtype
  data : List ℚ
deriving DecidableEq

/-- xp.zeros_like(a): a zero-filled array with the shape and dtype of a. -/
def zerosLike (a : Arr) : Arr :=
  { shape := a.shape, dtype := a.dtype, data := List.replicate a.data.length 0 }

/-- Parameter variable: a data array plus an optional gradient array
(param.grad may be None). -/
structure Param where
  data : Arr
  grad : Option Arr
deriving DecidableEq

/-- Error taxonomy of optimizer.py, named as in the specification.
Python exception classes at the corresponding raise sites: typeKind is
TypeError, valueKind is the ValueError for a missing hook name,
duplicateKind is the name-collision error on hook registration (raised as
ValueError by UpdateRule.add_hook and as KeyError by Optimizer.add_hook),
keyKind is the KeyError from removing an unknown hook, runtimeKind is the
RuntimeError when add_hook runs before setup, attributeKind is the
AttributeError when Optimizer.add_hook reads a missing hook.name. -/
inductive Err where
  | typeKind
  | valueKind
  | duplicateKind
  | keyKind
  | runtimeKind
  | attributeKind
deriving DecidableEq

/-- A Python hook callable as seen by add_hook: whether it is callable,
its optional name attribute, its optional dunder name attribute, and the
underlying gradient transformation on the parameter it receives. -/
structure HookObj where
  isCallable : Bool
  attrName : Option String
  dunderName : Option String
  fn : Param → Param

/-- Name resolution in UpdateRule.add_hook: an explicit name argument wins,
otherwise getattr(hook, 'name', getattr(hook, '__name__', None)). -/
def resolveHookName (hook : HookObj) (name : Option String) : Option String :=
  match name with
  | some n => some n
  | none =>
    match hook.attrName with
    | some n => some n
    | none => hook.dunderName

/-- State dictionary of an update rule: insertion-ordered mapping from state
key to value. A value is an optional array because the deserialization
probe assigns whatever the serializer returns, which can be absent. -/
abbrev StateDict := List (String × Option Arr)

/-- UpdateRule (optimizer.py): the ordered hook mapping, the lazily created
state dictionary, the enabled flag and the step counter, together with the
subclass-provided init_state and update_core behaviour. The per-entry
device migration of _prepare is the identity in this single-device model. -/
structure Rule where
  hooks : List (String × (Param → Param))
  state : Option StateDict
  enabled : Bool
  t : Nat
  initState : Param → StateDict
  updateCore : StateDict → Param → StateDict × Param

/-- UpdateRule.add_hook: reject non-callables, resolve the name, reject a
name that is already registered, else append to the ordered mapping. -/
def Rule.addHook (r : Rule) (hook : HookObj) (name : Option String) : Except Err Rule :=
  if !hook.isCallable then Except.error Err.typeKind
  else
    match resolveHookName hook name with
    | none => Except.error Err.valueKind
    | some n =>
      if r.hooks.any (fun kv => kv.1 == n) then Except.error Err.duplicateKind
      else Except.ok { r with hooks := r.hooks ++ [(n, hook.fn)] }

/-- UpdateRule.update: no-op when disabled; otherwise increment t, run state
preparation (create and init_state the state dictionary on first use), run
every hook in insertion order on the parameter, then the numeric core
update. The returned list is the names of the hooks that were invoked. -/
def Rule.update (r : Rule) (p : Param) : Rule × Param × List String :=
  if r.enabled then
    let r1 : Rule := { r with t := r.t + 1 }
    let r2 : Rule :=
      match r1.state with
      | none => { r1 with state := some (r1.initState p) }
      | some _ => r1
    let p1 := r2.hooks.foldl (fun q h => h.2 q) p
    let res := r2.updateCore (r2.state.getD []) p1
    ({ r2 with state := some res.1 }, res.2, r2.hooks.map Prod.fst)
  else (r, p, [])

/-- External serializer collaborator: writer mode records (key, value)
pairs in call order; reader mode returns the stored value for a key, or
the caller-supplied default when the key is absent. -/
inductive Serializer where
  | writer (store : StateDict)
  | reader (store : StateDict)
deriving DecidableEq

/-- One call serializer(key, value) of the key-value protocol. -/
def serCall : Serializer → String → Option Arr → Serializer × Option Arr
  | Serializer.writer store, key, v => (Serializer.writer (store ++ [(key, v)]), v)
  | Serializer.reader store, key, v =>
    (Serializer.reader store,
      match List.lookup key store with
      | some w => w
      | none => v)

/-- Runs serializer(key, value) over the given entries in order, returning
the reassigned entries and the serializer after all calls. -/
def serializeEntries : Serializer → StateDict → StateDict × Serializer
  | s, [] => ([], s)
  | s, kv :: rest =>
    let first := serCall s kv.1 kv.2
    let tail := serializeEntries first.1 rest
    ((kv.1, first.2) :: tail.1, tail.2)

/-- Placeholder parameter used by the deserialization probe:
numpy.empty(1, numpy.float32) wrapped as a Variable with itself as grad. -/
def placeholderParam : Param :=
  { data := { shape := [1], dtype := Dtype.float32, data := [0] },
    grad := some { shape := [1], dtype := Dtype.float32, data := [0] } }

/-- UpdateRule.serialize. With no state and a deserializer: a fresh state
dict is created, a shallow copy of the rule runs init_state on a 1-element
placeholder (the shallow copy shares the fresh dict, so the discovered
entries land in this rule's state), and then every discovered key is
requested from the serializer with a None default. With existing state,
every entry is round-tripped through the serializer keyed by its name.
With no state and a writer, nothing happens. -/
def Rule.serialize (r : Rule) (s : Serializer) : Rule × Serializer :=
  match r.state with
  | none =>
    match s with
    | Serializer.reader store =>
      let discovered := r.initState placeholderParam
      let res :=
        serializeEntries (Serializer.reader store)
          (discovered.map (fun kv => (kv.1, none)))
      ({ r with state := some res.1 }, res.2)
    | Serializer.writer store => (r, Serializer.writer store)
  | some st =>
    let res := serializeEntries s st
    ({ r with state := some res.1 }, res.2)

/-- The reader over whatever store a serializer holds (the checkpoint that
a writer produced, reopened for reading). -/
def toReader : Serializer → Serializer
  | Serializer.writer store => Serializer.reader store
  | Serializer.reader store => Serializer.reader store

/-- Python ordered-dict assignment d[k] = v: replace the value in place
when the key is present, else append the new entry at the end. -/
def dictSet {β : Type} : List (String × β) → String → β → List (String × β)
  | [], k, v => [(k, v)]
  | kv :: rest, k, v =>
    if kv.1 == k then (k, v) :: rest else kv :: dictSet rest k v

/-- Hyperparameter: the local attribute mapping plus the optional parent
link. The _parent field is kept apart from the attribute dict, so
get_dict's exclusion of _parent is structural here. Values are modelled
as rationals. -/
inductive Hyper where
  | mk (parent : Option Hyper) (locals : List (String × ℚ))

/-- The parent link of a hyperparameter. -/
def Hyper.parent : Hyper → Option Hyper
  | Hyper.mk p _ => p

/-- The local attribute dictionary of a hyperparameter. -/
def Hyper.locals : Hyper → List (String × ℚ)
  | Hyper.mk _ ls => ls

/-- Hyperparameter.get_dict: the parent's recursive flattening (empty when
there is no parent) overlaid with every local entry. -/
def Hyper.getDict : Hyper → List (String × ℚ)
  | Hyper.mk p ls =>
    let d :=
      match p with
      | none => []
      | some par => par.getDict
    ls.foldl (fun acc kv => dictSet acc kv.1 kv.2) d

/-- Setting an attribute on a hyperparameter object updates its local
dictionary and leaves the parent link alone. -/
def Hyper.setLocal : Hyper → String → ℚ → Hyper
  | Hyper.mk p ls, k, v => Hyper.mk p (dictSet ls k v)

/-- Optimizer base object. The hooks field is an Option to model that the
_hooks attribute exists only once setup has run. -/
structure OptBase where
  target : Option (List Param)
  t : Nat
  epoch : Nat
  hooks : Option (List (String × HookObj))

/-- Argument to Optimizer.setup: either a Link (modelled by its list of
parameters) or a value that is not a link. -/
inductive LinkOrNot where
  | link (params : List Param)
  | notLink

/-- Optimizer.setup: reject a non-link target with TypeError before storing
anything, else store the target and reset t, epoch and the hook mapping. -/
def OptBase.setup (o : OptBase) (arg : LinkOrNot) : Except Err OptBase :=
  match arg with
  | LinkOrNot.notLink => Except.error Err.typeKind
  | LinkOrNot.link ps =>
    Except.ok { o with target := some ps, t := 0, epoch := 0, hooks := some [] }

/-- Optimizer.new_epoch: increments epoch and nothing else. -/
def OptBase.newEpoch (o : OptBase) : OptBase :=
  { o with epoch := o.epoch + 1 }

/-- Name resolution in Optimizer.add_hook: an explicit name argument wins,
else hook.name (whose absence is an AttributeError, with no fallback to
the dunder name). -/
def optResolveHookName (hook : HookObj) (name : Option String) : Option String :=
  match name with
  | some n => some n
  | none => hook.attrName

/-- Optimizer.add_hook: reject non-callables, reject registration before
setup, resolve the name, reject a duplicate name, else append. -/
def OptBase.addHook (o : OptBase) (hook : HookObj) (name : Option String) : Except Err OptBase :=
  if !hook.isCallable then Except.error Err.typeKind
  else
    match o.hooks with
    | none => Except.error Err.runtimeKind
    | some hs =>
      match optResolveHookName hook name with
      | none => Except.error Err.attributeKind
      | some n =>
        if hs.any (fun kv => kv.1 == n) then Except.error Err.duplicateKind
        else Except.ok { o with hooks := some (hs ++ [(n, hook)]) }

/-- Events observable during GradientMethod.update, listed in the order
they can occur. -/
inductive Ev where
  | lossCall
  | clearGrads
  | zeroGrads
  | backward
  | discardLoss
  | hooksCall
  | incT
  | paramUpdates
deriving DecidableEq

/-- The loss object returned by lossfun: its backward call populates
gradients on the target's parameters. -/
structure Loss where
  backwardEffect : List Param → List Param

/-- A global optimizer hook as it acts through call_hooks: it can read the
optimizer's step counter and transforms the target's parameters (the
gradient transformations of WeightDecay, clipping, noise and so on). -/
abbrev GHook := Nat → List Param → List Param

/-- A GradientMethod optimizer after setup: the target parameters, the two
counters, the ordered global hook mapping and the cleargrads/zerograds
mode flag set by use_cleargrads. -/
structure GradOpt where
  target : List Param
  t : Nat
  epoch : Nat
  hooks : List (String × GHook)
  useCleargrads : Bool

/-- Link.cleargrads: every gradient becomes None. -/
def cleargrads (ps : List Param) : List Param :=
  ps.map (fun p => { p with grad := none })

/-- Link.zerograds: every gradient becomes a zero array like the data. -/
def zerograds (ps : List Param) : List Param :=
  ps.map (fun p => { p with grad := some (zerosLike p.data) })

/-- Gradient materialization for one parameter: an absent gradient becomes
xp.zeros_like(param.data); a present gradient is untouched. -/
def fillGrad (p : Param) : Param :=
  match p.grad with
  | none => { p with grad := some (zerosLike p.data) }
  | some _ => p

/-- The gradient materialization loop of GradientMethod.update over the
initialized parameters of the target. -/
def fillMissingGrads (ps : List Param) : List Param :=
  ps.map fillGrad

/-- Optimizer.call_hooks: every registered hook in insertion order. -/
def callHooks (t : Nat) (hooks : List (String × GHook)) (ps : List Param) : List Param :=
  hooks.foldl (fun ps h => h.2 t ps) ps

/-- The target parameters after the lossfun phase of GradientMethod.update:
with a lossfun, the loss is computed first, then the existing gradients
are cleared by cleargrads or zerograds according to the mode flag, then
loss.backward() populates gradients; without a lossfun the target is
taken as is. -/
def gradPhaseTarget (opt : GradOpt) (lossfun : Option Loss) : List Param :=
  match lossfun with
  | none => opt.target
  | some loss =>
    loss.backwardEffect
      (if opt.useCleargrads then cleargrads opt.target else zerograds opt.target)

/-- The parameter list handed to the global hooks by
GradientMethod.update: the lossfun-phase target with every absent
gradient zero-filled. -/
def hooksInput (opt : GradOpt) (lossfun : Option Loss) : List Param :=
  fillMissingGrads (gradPhaseTarget opt lossfun)

/-- GradientMethod.update, with param.update() abstracted as paramStep.
Returns the optimizer after the step and the ordered event trace: the
lossfun phase (when present), then call_hooks, the t increment and the
per-parameter update dispatch. -/
def gradMethodUpdate (paramStep : Param → Param) (opt : GradOpt)
    (lossfun : Option Loss) : GradOpt × List Ev :=
  let lossEvents : List Ev :=
    match lossfun with
    | none => []
    | some _ =>
      [Ev.lossCall, if opt.useCleargrads then Ev.clearGrads else Ev.zeroGrads,
       Ev.backward, Ev.discardLoss]
  let afterHooks := callHooks opt.t opt.hooks (hooksInput opt lossfun)
  ({ opt with target := afterHooks.map paramStep, t := opt.t + 1 },
   lossEvents ++ [Ev.hooksCall, Ev.incT, Ev.paramUpdates])

noncomputable section

/-- The squared L2 norm accumulated over all gradient arrays
(_sum_sqnorm with a single residency group). -/
def sumSqnorm (grads : List (List ℝ)) : ℝ :=
  (grads.map (fun g => (g.map (fun x => x * x)).sum)).sum

/-- GradientClipping on the list of gradient arrays: with
rate = threshold / norm and norm the square root of the summed squares,
scale every gradient element by rate in place when rate is below one,
otherwise leave everything unchanged. -/
def gradientClipping (threshold : ℝ) (grads : List (List ℝ)) : List (List ℝ) :=
  if threshold / Real.sqrt (sumSqnorm grads) < 1 then
    grads.map (fun g => g.map (fun x => x * (threshold / Real.sqrt (sumSqnorm grads))))
  else grads

end

section Helpers

variable {β : Type}

lemma lookup_cons (a q : String) (b : β) (l : List (String × β)) :
    List.lookup q ((a, b) :: l) = if q = a then some b else List.lookup q l := by
  by_cases h : q = a
  · subst h
    simp [List.lookup]
  · rw [if_neg h]
    show (match q == a with
      | true => some b
      | false => List.lookup q l) = List.lookup q l
    rw [beq_eq_false_iff_ne.mpr h]

lemma lookup_eq_none_of_not_mem (l : List (String × β)) (q : String)
    (h : q ∉ l.map Prod.fst) : List.lookup q l = none := by
  induction l with
  | nil => simp
  | cons kv rest ih =>
    obtain ⟨a, b⟩ := kv
    simp only [List.map_cons, List.mem_cons, not_or] at h
    simp [lookup_cons, h.1, ih h.2]

lemma lookup_self_of_nodup (l : List (String × β))
    (h : (l.map Prod.fst).Nodup) : ∀ kv ∈ l, List.lookup kv.1 l = some kv.2 := by
  induction l with
  | nil => simp
  | cons hd rest ih =>
    obtain ⟨a, b⟩ := hd
    simp only [List.map_cons, List.nodup_cons] at h
    intro kv hkv
    rcases List.mem_cons.mp hkv with rfl | hmem
    · simp [lookup_cons]
    · have hne : kv.1 ≠ a := by
        intro heq
        exact h.1 (heq ▸ List.mem_map_of_mem Prod.fst hmem)
      simp [lookup_cons, hne, ih h.2 kv hmem]

lemma lookup_dictSet (d : List (String × β)) (k q : String) (v : β) :
    List.lookup q (dictSet d k v) = if q = k then some v else List.lookup q d := by
  induction d with
  | nil => by_cases hq : q = k <;> simp [dictSet, lookup_cons, hq]
  | cons kv rest ih =>
    obtain ⟨a, b⟩ := kv
    by_cases ha : a = k
    · subst ha
      by_cases hq : q = a <;> simp [dictSet, lookup_cons, hq]
    · by_cases hq : q = a
      · subst hq
        simp [dictSet, lookup_cons, beq_eq_false_iff_ne.mpr ha, Ne.symm ha, ha]
      · simp [dictSet, lookup_cons, beq_eq_false_iff_ne.mpr ha, hq, ih]

lemma lookup_foldl_dictSet (ls : List (String × β))
    (hnd : (ls.map Prod.fst).Nodup) (d : List (String × β)) (q : String) :
    List.lookup q (ls.foldl (fun acc kv => dictSet acc kv.1 kv.2) d) =
      match List.lookup q ls with
      | some v => some v
      | none => List.lookup q d := by
  induction ls generalizing d with
  | nil => simp
  | cons kv rest ih =>
    obtain ⟨a, b⟩ := kv
    simp only [List.map_cons, List.nodup_cons] at hnd
    simp only [List.foldl_cons]
    rw [ih hnd.2]
    by_cases hq : q = a
    · subst hq
      have hnone : List.lookup q rest = none :=
        lookup_eq_none_of_not_mem rest q hnd.1
      simp [hnone, lookup_cons, lookup_dictSet]
    · cases hrest : List.lookup q rest <;>
        simp [lookup_cons, hq, hrest, lookup_dictSet]

lemma map_eq_self_of_mem {α : Type} (l : List α) (f : α → α)
    (h : ∀ a ∈ l, f a = a) : l.map f = l := by
  induction l with
  | nil => rfl
  | cons a rest ih =>
    simp only [List.map_cons, h a (List.mem_cons_self a rest),
      ih (fun x hx => h x (List.mem_cons_of_mem a hx))]

lemma serializeEntries_writer (st : StateDict) :
    ∀ acc : StateDict,
      serializeEntries (Serializer.writer acc) st = (st, Serializer.writer (acc ++ st)) := by
  induction st with
  | nil => intro acc; simp [serializeEntries]
  | cons kv rest ih =>
    intro acc
    obtain ⟨a, b⟩ := kv
    simp [serializeEntries, serCall, ih]

lemma serializeEntries_reader (store : StateDict) (entries : StateDict) :
    serializeEntries (Serializer.reader store) entries =
      (entries.map (fun kv =>
        (kv.1,
          match List.lookup kv.1 store with
          | some w => w
          | none => kv.2)),
       Serializer.reader store) := by
  induction entries with
  | nil => simp [serializeEntries]
  | cons kv rest ih =>
    obtain ⟨a, b⟩ := kv
    simp [serializeEntries, serCall, ih]

lemma inner_sq_sum_nonneg (g : List ℝ) : 0 ≤ (g.map (fun x => x * x)).sum := by
  apply List.sum_nonneg
  intro y hy
  obtain ⟨x, _, rfl⟩ := List.mem_map.mp hy
  exact mul_self_nonneg x

lemma sumSqnorm_nonneg (grads : List (List ℝ)) : 0 ≤ sumSqnorm grads := by
  apply List.sum_nonneg
  intro y hy
  obtain ⟨g, _, rfl⟩ := List.mem_map.mp hy
  exact inner_sq_sum_nonneg g

lemma all_zero_of_sum_zero (l : List ℝ) (h0 : ∀ x ∈ l, 0 ≤ x)
    (hs : l.sum = 0) : ∀ x ∈ l, x = 0 := by
  induction l with
  | nil => simp
  | cons a rest ih =>
    have ha : 0 ≤ a := h0 a (List.mem_cons_self a rest)
    have hrest0 : ∀ x ∈ rest, 0 ≤ x := fun x hx => h0 x (List.mem_cons_of_mem a hx)
    have hrestsum : 0 ≤ rest.sum := List.sum_nonneg hrest0
    simp only [List.sum_cons] at hs
    have ha0 : a = 0 := by linarith
    have hr : rest.sum = 0 := by linarith
    intro x hx
    rcases List.mem_cons.mp hx with rfl | hmem
    · exact ha0
    · exact ih hrest0 hr x hmem

lemma sumSqnorm_zero_all_zero (grads : List (List ℝ))
    (h : sumSqnorm grads = 0) : ∀ g ∈ grads, ∀ x ∈ g, x = 0 := by
  intro g hg x hx
  have hinner : (g.map (fun y => y * y)).sum = 0 := by
    refine all_zero_of_sum_zero _ ?_ h _ (List.mem_map_of_mem _ hg)
    intro y hy
    obtain ⟨gg, _, rfl⟩ := List.mem_map.mp hy
    exact inner_sq_sum_nonneg gg
  have hxx : x * x = 0 :=
    all_zero_of_sum_zero _ (fun y hy => by
      obtain ⟨z, _, rfl⟩ := List.mem_map.mp hy
      exact mul_self_nonneg z) hinner _ (List.mem_map_of_mem _ hx)
  exact mul_self_eq_zero.mp hxx

end Helpers

/-- C1 as the claim states it fails on the code: in GradientMethod.update
with a lossfun, the gradients are not cleared before lossfun runs. At this
concrete input (zerograds mode, one parameter, identity loss) the first
four events are lossCall, zeroGrads, backward, discardLoss, not the
claimed zeroGrads, lossCall, backward, discardLoss. -/
theorem gradmethod_update_lossfun_order_cex :
    (gradMethodUpdate id
        { target := [{ data := { shape := [1], dtype := Dtype.float32, data := [1] },
                       grad := none }],
          t := 0, epoch := 0, hooks := [], useCleargrads := false }
        (some { backwardEffect := fun ps => ps })).2.take 4 ≠
      [Ev.zeroGrads, Ev.lossCall, Ev.backward, Ev.discardLoss] := by
  decide

/-- C1 (amended): for every call of GradientMethod.update with a lossfun
provided, the steps occur in this order: lossfun(*args) is invoked first to
obtain the loss, then the existing gradients are cleared (via cleargrads or
zerograds according to the mode flag), then the loss's backward computation
is triggered, then the loss reference is discarded. -/
theorem gradmethod_update_lossfun_order (paramStep : Param → Param)
    (opt : GradOpt) (loss : Loss) :
    (gradMethodUpdate paramStep opt (some loss)).2.take 4 =
      [Ev.lossCall, if opt.useCleargrads then Ev.clearGrads else Ev.zeroGrads,
       Ev.backward, Ev.discardLoss] := by
  cases h : opt.useCleargrads <;> simp [gradMethodUpdate, h]

/-- C2: for every target and every GradientMethod.update call (with or
without lossfun), the step counter t goes up by exactly one, every
parameter handed to the global hooks has a concrete gradient, and
pointwise the hook input keeps the data, zero-fills (zeros_like the data)
exactly the parameters whose gradient was absent after the lossfun phase,
and keeps the others' gradients. -/
theorem gradmethod_update_fills_grads (paramStep : Param → Param)
    (opt : GradOpt) (lossfun : Option Loss) :
    (gradMethodUpdate paramStep opt lossfun).1.t = opt.t + 1 ∧
    (∀ p ∈ hooksInput opt lossfun, p.grad.isSome = true) ∧
    List.Forall₂
      (fun p q => q.data = p.data ∧
        (p.grad = none → q.grad = some (zerosLike p.data)) ∧
        (∀ g, p.grad = some g → q.grad = some g))
      (gradPhaseTarget opt lossfun) (hooksInput opt lossfun) := by
  refine ⟨by simp [gradMethodUpdate], ?_, ?_⟩
  · intro p hp
    rw [hooksInput, fillMissingGrads] at hp
    obtain ⟨q, _, rfl⟩ := List.mem_map.mp hp
    cases hq : q.grad <;> simp [fillGrad, hq]
  · rw [hooksInput, fillMissingGrads]
    induction gradPhaseTarget opt lossfun with
    | nil => exact List.Forall₂.nil
    | cons p rest ih =>
      refine List.Forall₂.cons ⟨?_, ?_, ?_⟩ ih
      · cases hp : p.grad <;> simp [fillGrad, hp]
      · intro h
        simp [fillGrad, h]
      · intro g hg
        simp [fillGrad, hg]

/-- Concrete two-parameter target for the C2 witness: one gradient set,
one absent, as in the end-to-end test of the specification. -/
def wOpt : GradOpt :=
  { target :=
      [{ data := { shape := [2], dtype := Dtype.float32, data := [1, 2] },
         grad := some { shape := [2], dtype := Dtype.float32, data := [5, 6] } },
       { data := { shape := [3], dtype := Dtype.float64, data := [1, 2, 3] },
         grad := none }],
    t := 0, epoch := 0, hooks := [], useCleargrads := false }

/-- Witness for C2 at the two-parameter target with no lossfun: t becomes
1, every hook-input parameter has a gradient, and the absent gradient has
become the zero array of the data's shape and dtype. -/
theorem gradmethod_update_fills_grads_witness :
    (gradMethodUpdate id wOpt none).1.t = wOpt.t + 1 ∧
    (∀ p ∈ hooksInput wOpt none, p.grad.isSome = true) ∧
    hooksInput wOpt none =
      [{ data := { shape := [2], dtype := Dtype.float32, data := [1, 2] },
         grad := some { shape := [2], dtype := Dtype.float32, data := [5, 6] } },
       { data := { shape := [3], dtype := Dtype.float64, data := [1, 2, 3] },
         grad := some { shape := [3], dtype := Dtype.float64, data := [0, 0, 0] } }] :=
  ⟨(gradmethod_update_fills_grads id wOpt none).1,
   (gradmethod_update_fills_grads id wOpt none).2.1,
   by decide⟩

/-- C3: UpdateRule.update on a disabled rule is a no-op: the whole rule
(state, including its uninitialized status, hook mapping and counter t)
and the parameter are unchanged, and no hook is invoked. -/
theorem update_rule_disabled_noop (r : Rule) (p : Param)
    (h : r.enabled = false) :
    (r.update p).1 = r ∧ (r.update p).2.1 = p ∧ (r.update p).2.2 = [] ∧
    (r.update p).1.state = r.state ∧ (r.update p).1.t = r.t ∧
    (r.update p).1.hooks = r.hooks := by
  simp [Rule.update, h]

/-- Concrete disabled rule for the C3 witness. -/
def wRuleOff : Rule :=
  { hooks := [("WeightDecay", fun p => p)], state := none, enabled := false,
    t := 3, initState := fun _ => [], updateCore := fun s p => (s, p) }

/-- Witness for C3: the disabled concrete rule is left fully unchanged and
invokes no hook. -/
theorem update_rule_disabled_noop_witness :
    wRuleOff.enabled = false ∧
    ((wRuleOff.update placeholderParam).1 = wRuleOff ∧
     (wRuleOff.update placeholderParam).2.1 = placeholderParam ∧
     (wRuleOff.update placeholderParam).2.2 = [] ∧
     (wRuleOff.update placeholderParam).1.state = wRuleOff.state ∧
     (wRuleOff.update placeholderParam).1.t = wRuleOff.t ∧
     (wRuleOff.update placeholderParam).1.hooks = wRuleOff.hooks) :=
  ⟨rfl, update_rule_disabled_noop wRuleOff placeholderParam rfl⟩

lemma probe_read :
    ∀ entries st full : StateDict,
      entries.map Prod.fst = st.map Prod.fst →
      (∀ kv ∈ st, List.lookup kv.1 full = some kv.2) →
      (serializeEntries (Serializer.reader full)
        (entries.map (fun kv => (kv.1, none)))).1 = st := by
  intro entries
  induction entries with
  | nil =>
    intro st full h hl
    cases st with
    | nil => simp [serializeEntries]
    | cons b t2 => simp at h
  | cons a t ih =>
    intro st full h hl
    cases st with
    | nil => simp at h
    | cons b t2 =>
      simp only [List.map_cons, List.cons.injEq] at h
      simp only [List.map_cons, serializeEntries, serCall]
      rw [h.1, hl b (List.mem_cons_self b t2),
        ih t2 full h.2 (fun kv hkv => hl kv (List.mem_cons_of_mem b hkv))]

/-- C4: for an UpdateRule with populated state (distinct keys), serializing
through a fresh writer and then deserializing through the corresponding
reader on a freshly constructed rule of the same type (same init_state,
state still None) reproduces the original state mapping, via the
throwaway init_state probe on the placeholder parameter whose key set
matches the original state's keys. -/
theorem update_rule_serialize_roundtrip (r r0 : Rule) (st : StateDict)
    (h1 : r.state = some st) (h0 : r0.state = none)
    (hsame : r0.initState = r.initState)
    (hkeys : (r.initState placeholderParam).map Prod.fst = st.map Prod.fst)
    (hnd : (st.map Prod.fst).Nodup) :
    ((r0.serialize (toReader ((r.serialize (Serializer.writer [])).2))).1).state =
      some st := by
  obtain ⟨rH, rS, rE, rT, rI, rU⟩ := r
  obtain ⟨qH, qS, qE, qT, qI, qU⟩ := r0
  dsimp only at h1 h0 hsame hkeys
  subst h1 h0 hsame
  simp only [Rule.serialize, serializeEntries_writer, toReader,
    List.nil_append, Option.some.injEq]
  exact probe_read (qI placeholderParam) st st hkeys
    (lookup_self_of_nodup st hnd)

/-- Concrete populated rule, its state mapping and a fresh rule of the same
type used for the serialization witnesses. -/
def wStMap : StateDict :=
  [("m", some { shape := [2], dtype := Dtype.float32, data := [1, 2] }),
   ("v", some { shape := [2], dtype := Dtype.float32, data := [3, 4] })]

def wRuleSt : Rule :=
  { hooks := [], state := some wStMap, enabled := true, t := 7,
    initState := fun p => [("m", some (zerosLike p.data)), ("v", some (zerosLike p.data))],
    updateCore := fun s p => (s, p) }

def wRuleFresh : Rule :=
  { wRuleSt with state := none, t := 0 }

/-- Witness for C4: the concrete two-key state survives the writer/reader
round trip onto the fresh rule. -/
theorem update_rule_serialize_roundtrip_witness :
    ((wRuleFresh.serialize (toReader ((wRuleSt.serialize (Serializer.writer [])).2))).1).state =
      some wStMap :=
  update_rule_serialize_roundtrip wRuleSt wRuleFresh wStMap rfl rfl rfl (by decide) (by decide)

/-- C10: UpdateRule.serialize touches only the state mapping: the counter
t, the enabled flag and the hook mapping are unchanged for every
serializer, and in writer mode exactly the state entries (keyed by their
names) are appended to the store kept by the serializer, so t is never
persisted. -/
theorem update_rule_serialize_frame (r : Rule) (s : Serializer) :
    ((r.serialize s).1).t = r.t ∧ ((r.serialize s).1).enabled = r.enabled ∧
    ((r.serialize s).1).hooks = r.hooks ∧
    (∀ st acc, r.state = some st → s = Serializer.writer acc →
      (r.serialize s).2 = Serializer.writer (acc ++ st)) := by
  refine ⟨?_, ?_, ?_, ?_⟩
  · cases h : r.state <;> cases s <;> simp [Rule.serialize, h]
  · cases h : r.state <;> cases s <;> simp [Rule.serialize, h]
  · cases h : r.state <;> cases s <;> simp [Rule.serialize, h]
  · intro st acc h1 h2
    subst h2
    simp [Rule.serialize, h1, serializeEntries_writer]

/-- Witness for C10: serializing the concrete populated rule into a fresh
writer leaves t, enabled and the hooks unchanged and stores exactly the
state entries. -/
theorem update_rule_serialize_frame_witness :
    ((wRuleSt.serialize (Serializer.writer [])).1).t = wRuleSt.t ∧
    ((wRuleSt.serialize (Serializer.writer [])).1).enabled = wRuleSt.enabled ∧
    ((wRuleSt.serialize (Serializer.writer [])).1).hooks = wRuleSt.hooks ∧
    (wRuleSt.serialize (Serializer.writer [])).2 = Serializer.writer ([] ++ wStMap) :=
  ⟨(update_rule_serialize_frame wRuleSt (Serializer.writer [])).1,
   (update_rule_serialize_frame wRuleSt (Serializer.writer [])).2.1,
   (update_rule_serialize_frame wRuleSt (Serializer.writer [])).2.2.1,
   (update_rule_serialize_frame wRuleSt (Serializer.writer [])).2.2.2 wStMap [] rfl rfl⟩

/-- C5: for every hyperparameter node, a lookup in get_dict is resolved by
the local entries first (local always wins on a key collision), falling
back to the parent's recursive flattening, and empty without a parent; and
setting a value on a child leaves the parent link, and hence the result of
the parent's get_dict, unchanged. -/
theorem hyperparameter_get_dict (p : Option Hyper) (ls : List (String × ℚ))
    (k k2 : String) (v2 : ℚ) (hnd : (ls.map Prod.fst).Nodup) :
    (List.lookup k (Hyper.getDict (Hyper.mk p ls)) =
      match List.lookup k ls with
      | some v => some v
      | none =>
        match p with
        | none => none
        | some par => List.lookup k par.getDict) ∧
    (((Hyper.mk p ls).setLocal k2 v2).parent).map Hyper.getDict =
      ((Hyper.mk p ls).parent).map Hyper.getDict := by
  constructor
  · cases p <;> cases h : List.lookup k ls <;>
      simp [Hyper.getDict, lookup_foldl_dictSet ls hnd, h]
  · cases p <;> simp [Hyper.setLocal, Hyper.parent]

/-- Concrete parent hyperparameter for the C5 witness. -/
def wParentHyper : Hyper := Hyper.mk none [("lr", 1), ("momentum", 9)]

/-- Witness for C5 on a depth-two chain: the local lr shadows the parent,
the momentum falls back to the parent, and setting on the child leaves the
parent's get_dict untouched. -/
theorem hyperparameter_get_dict_witness :
    List.lookup "lr" (Hyper.getDict (Hyper.mk (some wParentHyper) [("lr", 2)])) =
      some 2 ∧
    List.lookup "momentum" (Hyper.getDict (Hyper.mk (some wParentHyper) [("lr", 2)])) =
      some 9 ∧
    (((Hyper.mk (some wParentHyper) [("lr", 2)]).setLocal "lr" 5).parent).map
        Hyper.getDict =
      some wParentHyper.getDict :=
  ⟨(hyperparameter_get_dict (some wParentHyper) [("lr", 2)] "lr" "lr" 5
      (by decide)).1,
   (hyperparameter_get_dict (some wParentHyper) [("lr", 2)] "momentum" "lr" 5
      (by decide)).1,
   (hyperparameter_get_dict (some wParentHyper) [("lr", 2)] "lr" "lr" 5
      (by decide)).2⟩

/-- C7: registering a hook under a name that is already present always
fails with the duplicate-registration error, for UpdateRule.add_hook and
Optimizer.add_hook alike, whatever the hook object is; in this pure model
an error result returns no updated object, so the hook mapping is left
unchanged. -/
theorem add_hook_duplicate_fails (r : Rule) (o : OptBase) (hook : HookObj)
    (nm : Option String) (n : String) (hs : List (String × HookObj))
    (hc : hook.isCallable = true) :
    (resolveHookName hook nm = some n →
      r.hooks.any (fun kv => kv.1 == n) = true →
      r.addHook hook nm = Except.error Err.duplicateKind) ∧
    (o.hooks = some hs → optResolveHookName hook nm = some n →
      hs.any (fun kv => kv.1 == n) = true →
      o.addHook hook nm = Except.error Err.duplicateKind) := by
  constructor
  · intro hres hdup
    simp [Rule.addHook, hc, hres, hdup]
  · intro ho hres hdup
    simp [OptBase.addHook, hc, ho, hres, hdup]

/-- Concrete duplicate-registration scenario for the C7 witness: the same
hook name WeightDecay is already registered on both the rule and the
optimizer. -/
def wDupHook : HookObj :=
  { isCallable := true, attrName := some "WeightDecay", dunderName := none,
    fn := fun p => p }

def wRuleDup : Rule :=
  { hooks := [("WeightDecay", fun p => p)], state := none, enabled := true,
    t := 0, initState := fun _ => [], updateCore := fun s p => (s, p) }

def wOptDup : OptBase :=
  { target := none, t := 0, epoch := 0, hooks := some [("WeightDecay", wDupHook)] }

/-- Witness for C7: adding a WeightDecay-named hook a second time fails
with the duplicate error on both registration paths. -/
theorem add_hook_duplicate_fails_witness :
    wRuleDup.addHook wDupHook none = Except.error Err.duplicateKind ∧
    wOptDup.addHook wDupHook none = Except.error Err.duplicateKind :=
  ⟨(add_hook_duplicate_fails wRuleDup wOptDup wDupHook none "WeightDecay"
      [("WeightDecay", wDupHook)] rfl).1 rfl (by decide),
   (add_hook_duplicate_fails wRuleDup wOptDup wDupHook none "WeightDecay"
      [("WeightDecay", wDupHook)] rfl).2 rfl rfl (by decide)⟩

/-- C8: Optimizer.setup on a link stores the target and resets t, epoch
and the hook mapping whatever the optimizer held before (in particular
after an earlier setup with a different target followed by further use),
and fails with the TypeError on a non-link without producing any updated
optimizer. -/
theorem optimizer_setup_resets (o : OptBase) (tgt tgt2 : List Param) :
    OptBase.setup o (LinkOrNot.link tgt) =
      Except.ok { target := some tgt, t := 0, epoch := 0, hooks := some [] } ∧
    OptBase.setup o LinkOrNot.notLink = Except.error Err.typeKind ∧
    (OptBase.setup o (LinkOrNot.link tgt)).bind
        (fun o1 => OptBase.setup o1.newEpoch (LinkOrNot.link tgt2)) =
      Except.ok { target := some tgt2, t := 0, epoch := 0, hooks := some [] } :=
  ⟨rfl, rfl, rfl⟩

/-- C9: UpdateRule.add_hook with no explicit name and no name attribute
falls back to the hook's dunder name when present (so a plain function is
accepted and registered under it), and fails with the missing-name
ValueError only when neither attribute exists. -/
theorem add_hook_name_fallback (r : Rule) (hook : HookObj) (s : String)
    (hc : hook.isCallable = true) (ha : hook.attrName = none) :
    (hook.dunderName = some s →
      r.hooks.any (fun kv => kv.1 == s) = false →
      r.addHook hook none = Except.ok { r with hooks := r.hooks ++ [(s, hook.fn)] }) ∧
    (hook.dunderName = none → r.addHook hook none = Except.error Err.valueKind) := by
  constructor
  · intro hd hnodup
    simp [Rule.addHook, resolveHookName, hc, ha, hd, hnodup]
  · intro hd
    simp [Rule.addHook, resolveHookName, hc, ha, hd]

/-- Concrete hooks and rule for the C9 witness: a plain function with only
a dunder name, and a callable with no name at all. -/
def wFnHook : HookObj :=
  { isCallable := true, attrName := none, dunderName := some "my_hook",
    fn := fun p => p }

def wNoNameHook : HookObj :=
  { isCallable := true, attrName := none, dunderName := none, fn := fun p => p }

def wRuleEmpty : Rule :=
  { hooks := [], state := none, enabled := true, t := 0,
    initState := fun _ => [], updateCore := fun s p => (s, p) }

/-- Witness for C9: the plain function registers under its dunder name and
the nameless callable is rejected. -/
theorem add_hook_name_fallback_witness :
    wRuleEmpty.addHook wFnHook none =
      Except.ok { wRuleEmpty with hooks := [("my_hook", wFnHook.fn)] } ∧
    wRuleEmpty.addHook wNoNameHook none = Except.error Err.valueKind :=
  ⟨(add_hook_name_fallback wRuleEmpty wFnHook "my_hook" rfl rfl).1 rfl rfl,
   (add_hook_name_fallback wRuleEmpty wNoNameHook "x" rfl rfl).2 rfl⟩

/-- C6: with N the combined L2 norm of all gradients and T the threshold,
GradientClipping scales every gradient element by exactly T / N when
T < N, and leaves every gradient unchanged when N is at most T. -/
theorem gradient_clipping_scales (threshold : ℝ) (grads : List (List ℝ)) :
    (threshold < Real.sqrt (sumSqnorm grads) →
      gradientClipping threshold grads =
        grads.map (fun g => g.map
          (fun x => x * (threshold / Real.sqrt (sumSqnorm grads))))) ∧
    (Real.sqrt (sumSqnorm grads) ≤ threshold →
      gradientClipping threshold grads = grads) := by
  constructor
  · intro h
    have hrate : threshold / Real.sqrt (sumSqnorm grads) < 1 := by
      rcases eq_or_lt_of_le (Real.sqrt_nonneg (sumSqnorm grads)) with hN | hN
      · rw [← hN, div_zero]
        exact zero_lt_one
      · exact (div_lt_one hN).mpr h
    simp [gradientClipping, hrate]
  · intro h
    rcases eq_or_lt_of_le (Real.sqrt_nonneg (sumSqnorm grads)) with hN | hN
    · have hS : sumSqnorm grads = 0 :=
        le_antisymm (Real.sqrt_eq_zero'.mp hN.symm) (sumSqnorm_nonneg grads)
      have hz := sumSqnorm_zero_all_zero grads hS
      have hrate : threshold / Real.sqrt (sumSqnorm grads) < 1 := by
        rw [← hN, div_zero]
        exact zero_lt_one
      simp only [gradientClipping, if_pos hrate]
      refine map_eq_self_of_mem _ _ (fun g hg => ?_)
      refine map_eq_self_of_mem _ _ (fun x hx => ?_)
      rw [hz g hg x hx, zero_mul]
    · have hge : ¬ threshold / Real.sqrt (sumSqnorm grads) < 1 :=
        not_lt.mpr ((one_le_div hN).mpr h)
      simp [gradientClipping, hge]

/-- Witness for C6: one gradient array [3, 4] has norm 5, and with
threshold 1 below the norm every element is scaled by exactly 1 / 5. -/
theorem gradient_clipping_scales_witness :
    (1 : ℝ) < Real.sqrt (sumSqnorm [[3, 4]]) ∧
    gradientClipping 1 [[3, 4]] = [[3 / 5, 4 / 5]] := by
  have hS : sumSqnorm [[(3 : ℝ), 4]] = 25 := by
    norm_num [sumSqnorm]
  have h5 : Real.sqrt (sumSqnorm [[(3 : ℝ), 4]]) = 5 := by
    rw [hS, show (25 : ℝ) = 5 ^ 2 by norm_num,
      Real.sqrt_sq (by norm_num : (0 : ℝ) ≤ 5)]
  have hlt : (1 : ℝ) < Real.sqrt (sumSqnorm [[3, 4]]) := by
    rw [h5]
    norm_num
  refine ⟨hlt, ?_⟩
  rw [(gradient_clipping_scales 1 [[3, 4]]).1 hlt, h5]
  norm_num [List.map_cons, List.map_nil]
